import Mathlib

/-!
Verification development for the block-construction and block-verification
core of the snarkVM-based ledger (vm/ledger/block/mod.rs) together with the
PlaintextType JSON helper (console/program/src/data_types/plaintext_type/mod.rs).

Block hashes are modelled as natural numbers; the value 0 plays the role of
the default ("zero") hash. The external collaborators (hash capability,
Header, TransactionSet, VM, signing key) are not part of the given sources,
so they are modelled from the spec as opaque interface records whose
behaviour each theorem quantifies over.
-/

namespace Aleo

/-- Modelled from the spec: the opaque block Header collaborator. It exposes
height, a fallible Merkle-root computation, a validity predicate and a
genesis predicate. The root computation result and the two predicate answers
are opaque to the core, so they are carried as fields. -/
structure Header where
  height : Nat
  rootResult : Option Nat
  isValidFlag : Bool
  isGenesisFlag : Bool
  deriving DecidableEq

/-- The fallible Merkle-root computation of the header (Header::to_root). -/
def Header.to_root (h : Header) : Option Nat := h.rootResult

/-- The validity predicate of the header (Header::is_valid). -/
def Header.is_valid (h : Header) : Bool := h.isValidFlag

/-- The genesis predicate of the header (Header::is_genesis). -/
def Header.is_genesis (h : Header) : Bool := h.isGenesisFlag

/-- Modelled from the spec: the fixed, canonical genesis header value
(Header::genesis): height 0, a fixed root, valid, and satisfying the
genesis predicate. -/
def Header.genesis : Header := ⟨0, some 0, true, true⟩

/-- Modelled from the spec: a transaction is either a deployment-kind or an
execution-kind transaction wrapping an opaque artifact. -/
inductive Transaction where
  | deployment (artifact : Nat)
  | execution (artifact : Nat)
  deriving DecidableEq

/-- Modelled from the spec: the network capability providing bit decomposition
of hash values and header roots, and the collision-resistant hash function
over bit strings (N::hash_bhp1024, fallible). -/
structure Network where
  hashBits : Nat → List Bool
  rootBits : Nat → List Bool
  hash_bhp1024 : List Bool → Option Nat

/-- Modelled from the spec: the opaque VM capability. The outcome of each bootstrap call is carried as a field (the randomness source is folded into these
opaque outcomes); execute returns a (receipt, execution) pair. The
transaction-set verification predicate against this VM handle is also a
field. -/
structure VM where
  deployResult : Except String Nat
  onDeployResult : Except String Unit
  authorizeResult : Except String Nat
  executeResult : Except String (Nat × Nat)
  txsVerify : List Transaction → Bool

/-- Modelled from the spec: Transactions::verify delegates per-transaction
checks to the VM collaborator. -/
def Transactions.verify (txs : List Transaction) (vm : VM) : Bool :=
  vm.txsVerify txs

/-- Modelled from the spec: Transactions::from, the fallible constructor of a
TransactionSet from an ordered list of transactions. -/
def Transactions.from' (txs : List Transaction) : Except String (List Transaction) :=
  Except.ok txs

/-- Modelled from the spec: the signing key, exposing the fallible derivation
of the caller address (Address::try_from). -/
structure PrivateKey where
  callerResult : Except String Nat

/-- The Block data model: block_hash, previous_hash, header, transactions
(vm/ledger/block/mod.rs, struct Block). -/
structure Block where
  block_hash : Nat
  previous_hash : Nat
  header : Header
  transactions : List Transaction
  deriving DecidableEq

/-- Block::from: ensure the transaction list is non-empty, compute the block
hash over the concatenated bits of the previous hash and the header root,
and assemble the block. -/
def Block.from' (N : Network) (previous_hash : Nat) (header : Header)
    (transactions : List Transaction) : Except String Block :=
  if transactions.isEmpty then
    Except.error ("Cannot create block with no transactions")
  else
    match header.to_root with
    | none => Except.error ("failed to compute the header root")
    | some root =>
      match N.hash_bhp1024 (N.hashBits previous_hash ++ N.rootBits root) with
      | none => Except.error ("failed to compute the block hash")
      | some bh => Except.ok ⟨bh, previous_hash, header, transactions⟩

/-- Block::is_genesis: the previous hash is zero, the header is a genesis
header, and there is exactly one transaction. -/
def Block.is_genesis (b : Block) : Bool :=
  b.previous_hash == 0 && b.header.is_genesis && b.transactions.length == 1

/-- Modelled from the spec: Program::genesis, the fixed canonical bootstrap
program (an opaque artifact). -/
def genesisProgramResult : Except String Nat := Except.ok 0

/-- Block::genesis: deploy the genesis program, register it, derive the
caller, authorize and execute the start function, then build the block from
the deployment and execution transactions at previous hash zero and
re-check the genesis predicate. -/
def Block.genesis (N : Network) (vm : VM) (key : PrivateKey) : Except String Block :=
  match genesisProgramResult with
  | Except.error e => Except.error e
  | Except.ok _program =>
    match vm.deployResult with
    | Except.error e => Except.error e
    | Except.ok deploy =>
      match vm.onDeployResult with
      | Except.error e => Except.error e
      | Except.ok _ =>
        match key.callerResult with
        | Except.error e => Except.error e
        | Except.ok _caller =>
          match vm.authorizeResult with
          | Except.error e => Except.error e
          | Except.ok _authorization =>
            match vm.executeResult with
            | Except.error e => Except.error e
            | Except.ok receiptAndExecution =>
              match Transactions.from' [Transaction.deployment deploy,
                  Transaction.execution receiptAndExecution.2] with
              | Except.error e => Except.error e
              | Except.ok transactions =>
                match Block.from' N 0 Header.genesis transactions with
                | Except.error e => Except.error e
                | Except.ok block =>
                  if block.is_genesis then Except.ok block
                  else Except.error ("Failed to initialize a genesis block")

/-- Block::verify: the ordered short-circuit validity check — genesis
consistency at height 0, header validity, header root computation, block
hash recomputation and comparison, and transaction-set verification. -/
def Block.verify (N : Network) (b : Block) (vm : VM) : Bool :=
  if b.header.height == 0 && !b.is_genesis then false
  else if !b.header.is_valid then false
  else
    match b.header.to_root with
    | none => false
    | some header_root =>
      match N.hash_bhp1024 (N.hashBits b.previous_hash ++ N.rootBits header_root) with
      | none => false
      | some candidate_hash =>
        if candidate_hash != b.block_hash then false
        else if !(Transactions.verify b.transactions vm) then false
        else true

/-- Modelled from the spec: the binary codecs of the external collaborators
(HashOutput, Header, TransactionSet). Each writer produces a byte list and
each reader consumes a prefix of the input, returning the decoded value and
the remaining bytes, or failing. -/
structure Codec where
  hashToBytes : Nat → List Nat
  hashFromBytes : List Nat → Option (Nat × List Nat)
  headerToBytes : Header → List Nat
  headerFromBytes : List Nat → Option (Header × List Nat)
  txsToBytes : List Transaction → List Nat
  txsFromBytes : List Nat → Option (List Transaction × List Nat)

/-- ToBytes for Block (write_le): version 0 as a 2-byte little-endian word,
then block_hash, previous_hash, header, transactions. -/
def Block.write_le (C : Codec) (b : Block) : List Nat :=
  0 :: 0 :: (C.hashToBytes b.block_hash ++ C.hashToBytes b.previous_hash ++
    C.headerToBytes b.header ++ C.txsToBytes b.transactions)

/-- FromBytes for Block (read_le): read the version and reject a non-zero
one, read block_hash, previous_hash, header, transactions, reconstruct the
block through Block::from, and compare the stored hash against the
hash of the reconstructed block. -/
def Block.read_le (N : Network) (C : Codec) (input : List Nat) : Except String Block :=
  match input with
  | b0 :: b1 :: rest =>
    if b0 + 256 * b1 != 0 then Except.error ("Invalid block version")
    else
      match C.hashFromBytes rest with
      | none => Except.error ("failed to read the block hash")
      | some (block_hash, r1) =>
        match C.hashFromBytes r1 with
        | none => Except.error ("failed to read the previous hash")
        | some (previous_hash, r2) =>
          match C.headerFromBytes r2 with
          | none => Except.error ("failed to read the header")
          | some (header, r3) =>
            match C.txsFromBytes r3 with
            | none => Except.error ("failed to read the transactions")
            | some (transactions, _r4) =>
              match Block.from' N previous_hash header transactions with
              | Except.error e => Except.error e
              | Except.ok blk =>
                if block_hash == blk.block_hash then Except.ok blk
                else Except.error ("Mismatching block hash, possible data corruption")
  | _ => Except.error ("failed to read the version")

/-- Modelled from the spec: a parsed structured-text document for a block.
Each field carries the outcome of parsing that named field with the
structured-text rule of that collaborator. -/
structure JsonDoc where
  blockHashField : Except String Nat
  previousHashField : Except String Nat
  headerField : Except String Header
  transactionsField : Except String (List Transaction)

/-- Serialize for Block (human-readable path): emit the four named fields
from the stored values of the block. -/
def Block.serializeDoc (b : Block) : JsonDoc :=
  ⟨Except.ok b.block_hash, Except.ok b.previous_hash,
    Except.ok b.header, Except.ok b.transactions⟩

/-- Deserialize for Block (human-readable path): parse the block_hash field,
reconstruct the block through Block::from applied to the parsed
previous_hash, header and transactions, and compare the parsed hash against
the hash of the reconstructed block. -/
def Block.deserializeDoc (N : Network) (d : JsonDoc) : Except String Block :=
  match d.blockHashField with
  | Except.error e => Except.error e
  | Except.ok block_hash =>
    match d.previousHashField with
    | Except.error e => Except.error e
    | Except.ok previous_hash =>
      match d.headerField with
      | Except.error e => Except.error e
      | Except.ok header =>
        match d.transactionsField with
        | Except.error e => Except.error e
        | Except.ok transactions =>
          match Block.from' N previous_hash header transactions with
          | Except.error e => Except.error e
          | Except.ok blk =>
            if block_hash == blk.block_hash then Except.ok blk
            else Except.error ("Mismatching block hash, possible data corruption")

/-- A JSON value (the image of serde_json::Value needed by the PlaintextType
helper). -/
inductive Json where
  | null
  | bool (b : Bool)
  | num (n : Nat)
  | str (s : String)
  | arr (elems : List Json)
  | obj (fields : List (String × Json))

/-- The keys of a JSON object, in order. -/
def Json.objKeys : Json → Option (List String)
  | Json.obj fields => some (fields.map Prod.fst)
  | _ => none

/-- Look up a key in a JSON object. -/
def Json.objGet (j : Json) (k : String) : Option Json :=
  match j with
  | Json.obj fields => (fields.find? (fun kv => kv.fst == k)).map Prod.snd
  | _ => none

/-- Modelled from the spec: a literal type, opaque except for its own JSON
description. -/
structure LiteralType where
  json : Json

/-- LiteralType::to_json. -/
def LiteralType.to_json (l : LiteralType) : Json := l.json

/-- Modelled from the spec: a struct identifier, opaque except for its own
JSON description. -/
structure Identifier where
  json : Json

/-- Identifier::to_json. -/
def Identifier.to_json (i : Identifier) : Json := i.json

/-- Modelled from the spec: an array type, opaque except for its own JSON
description. -/
structure ArrayType where
  json : Json

/-- ArrayType::to_json. -/
def ArrayType.to_json (a : ArrayType) : Json := a.json

/-- PlaintextType: the type parameter of a literal, struct, or array
(console/program/src/data_types/plaintext_type/mod.rs). -/
inductive PlaintextType where
  | Literal (l : LiteralType)
  | Struct (s : Identifier)
  | Array (a : ArrayType)

/-- PlaintextType::to_json: build the vtype tag and the JSON of the inner value
by matching on the variant, then emit the three-key object. -/
def PlaintextType.to_json (p : PlaintextType) : Json :=
  let j_vtype : String :=
    match p with
    | PlaintextType.Literal _ => "Literal"
    | PlaintextType.Struct _ => "Struct"
    | PlaintextType.Array _ => "Array"
  let j_value : Json :=
    match p with
    | PlaintextType.Literal l => l.to_json
    | PlaintextType.Struct s => s.to_json
    | PlaintextType.Array a => a.to_json
  Json.obj [("type", Json.str "PlaintextType"), ("vtype", Json.str j_vtype),
    ("value", j_value)]

/-! Concrete instances used by the evaluation witnesses. -/

/-- A network whose hash function is the constant 7. -/
def N0 : Network := ⟨fun _ => [], fun _ => [], fun _ => some 7⟩

/-- A non-genesis header with a computable root. -/
def hdr1 : Header := ⟨1, some 4, true, true⟩

/-- A sample transaction. -/
def tx1 : Transaction := Transaction.execution 9

/-- A hash-consistent non-genesis block under N0. -/
def bV : Block := ⟨7, 2, hdr1, [tx1]⟩

/-- A VM handle on which every bootstrap call succeeds and every transaction
set verifies. -/
def vm0 : VM := ⟨Except.ok 3, Except.ok (), Except.ok 11, Except.ok (0, 5), fun _ => true⟩

/-- A signing key whose caller derivation succeeds. -/
def key0 : PrivateKey := ⟨Except.ok 21⟩

/-- The block assembled by the genesis bootstrap under N0, vm0 and key0. -/
def blk0 : Block := ⟨7, 0, Header.genesis, [Transaction.deployment 3, Transaction.execution 5]⟩

/-- Unary byte encoding of a natural number, used by the witness codec. -/
def natToBytesU (n : Nat) : List Nat := List.replicate n 1 ++ [0]

/-- Reader for the unary encoding. -/
def natFromBytesU : List Nat → Option (Nat × List Nat)
  | 0 :: rest => some (0, rest)
  | 1 :: rest =>
    match natFromBytesU rest with
    | some (n, r) => some (n + 1, r)
    | none => none
  | _ => none

/-- Byte encoding of a boolean. -/
def boolToBytesU (b : Bool) : List Nat := [if b then 1 else 0]

/-- Reader for the boolean encoding. -/
def boolFromBytesU : List Nat → Option (Bool × List Nat)
  | 0 :: rest => some (false, rest)
  | 1 :: rest => some (true, rest)
  | _ => none

/-- Byte encoding of an optional natural number. -/
def optNatToBytesU : Option Nat → List Nat
  | none => [0]
  | some n => 1 :: natToBytesU n

/-- Reader for the optional-natural encoding. -/
def optNatFromBytesU : List Nat → Option (Option Nat × List Nat)
  | 0 :: rest => some (none, rest)
  | 1 :: rest =>
    match natFromBytesU rest with
    | some (n, r) => some (some n, r)
    | none => none
  | _ => none

/-- Byte encoding of a header for the witness codec. -/
def headerToBytesU (h : Header) : List Nat :=
  natToBytesU h.height ++ optNatToBytesU h.rootResult ++
    boolToBytesU h.isValidFlag ++ boolToBytesU h.isGenesisFlag

/-- Reader for the header encoding. -/
def headerFromBytesU (bs : List Nat) : Option (Header × List Nat) :=
  match natFromBytesU bs with
  | none => none
  | some (ht, r1) =>
    match optNatFromBytesU r1 with
    | none => none
    | some (rt, r2) =>
      match boolFromBytesU r2 with
      | none => none
      | some (v, r3) =>
        match boolFromBytesU r3 with
        | none => none
        | some (g, r4) => some (⟨ht, rt, v, g⟩, r4)

/-- Byte encoding of a single transaction for the witness codec. -/
def txToBytesU : Transaction → List Nat
  | Transaction.deployment d => 0 :: natToBytesU d
  | Transaction.execution e => 1 :: natToBytesU e

/-- Reader for the transaction encoding. -/
def txFromBytesU : List Nat → Option (Transaction × List Nat)
  | 0 :: rest =>
    match natFromBytesU rest with
    | some (d, r) => some (Transaction.deployment d, r)
    | none => none
  | 1 :: rest =>
    match natFromBytesU rest with
    | some (e, r) => some (Transaction.execution e, r)
    | none => none
  | _ => none

/-- Concatenated encodings of a transaction list. -/
def txsBodyToBytesU : List Transaction → List Nat
  | [] => []
  | t :: ts => txToBytesU t ++ txsBodyToBytesU ts

/-- Read a given number of transactions. -/
def readTxsU : Nat → List Nat → Option (List Transaction × List Nat)
  | 0, bs => some ([], bs)
  | n + 1, bs =>
    match txFromBytesU bs with
    | none => none
    | some (t, r) =>
      match readTxsU n r with
      | none => none
      | some (ts, r2) => some (t :: ts, r2)

/-- Length-prefixed byte encoding of a transaction list. -/
def txsToBytesU (l : List Transaction) : List Nat :=
  natToBytesU l.length ++ txsBodyToBytesU l

/-- Reader for the transaction-list encoding. -/
def txsFromBytesU (bs : List Nat) : Option (List Transaction × List Nat) :=
  match natFromBytesU bs with
  | none => none
  | some (n, r) => readTxsU n r

/-- The witness codec: prefix-correct unary encodings for every component. -/
def CodecU : Codec :=
  ⟨natToBytesU, natFromBytesU, headerToBytesU, headerFromBytesU, txsToBytesU, txsFromBytesU⟩

/-- Encoding of a bit string into a natural number (base-3 digits 1 and 2),
used to build an injective witness hash function. -/
def bitsVal : List Bool → Nat
  | [] => 0
  | b :: bs => (if b then 2 else 1) + 3 * bitsVal bs

/-- A network with injective bit decomposition and an injective hash
function. -/
def NInj : Network :=
  ⟨fun n => List.replicate n true ++ [false], fun _ => [], fun bs => some (bitsVal bs)⟩

/-- A hash-consistent block under NInj. -/
def bI : Block := ⟨1, 0, hdr1, [tx1]⟩

/-! Helper lemmas. -/

/-- Inversion principle for a successful Block::from: the transaction list is
non-empty, the stored fields are the supplied ones, and the stored block hash
is the hash of the concatenated bits of the previous hash and header root. -/
lemma Block.from_ok_spec {N : Network} {ph : Nat} {h : Header}
    {txs : List Transaction} {b : Block}
    (hb : Block.from' N ph h txs = Except.ok b) :
    txs ≠ [] ∧ b.previous_hash = ph ∧ b.header = h ∧ b.transactions = txs ∧
      ∃ r, h.to_root = some r ∧
        N.hash_bhp1024 (N.hashBits ph ++ N.rootBits r) = some b.block_hash := by
  unfold Block.from' at hb
  split at hb
  · exact absurd hb (by simp)
  · next hne =>
    split at hb
    · exact absurd hb (by simp)
    · next r hr =>
      split at hb
      · exact absurd hb (by simp)
      · next bh hhash =>
        cases hb
        refine ⟨?_, rfl, rfl, rfl, r, hr, hhash⟩
        intro hnil
        exact hne (by simp [hnil])

/-- Successful Block::from yields a hash-consistent block, stated on the
fields of the result. -/
lemma Block.from_ok_consistent {N : Network} {ph : Nat} {h : Header}
    {txs : List Transaction} {b : Block}
    (hb : Block.from' N ph h txs = Except.ok b) :
    ∃ r, b.header.to_root = some r ∧
      N.hash_bhp1024 (N.hashBits b.previous_hash ++ N.rootBits r) = some b.block_hash := by
  obtain ⟨-, hph, hh, -, r, hr, hhash⟩ := Block.from_ok_spec hb
  exact ⟨r, by rw [hh]; exact hr, by rw [hph]; exact hhash⟩

/-! Claim theorems. -/

/-- C3: whenever Block::from succeeds, the resulting block b satisfies the
hash-consistency invariant: the hash of the concatenated bits of
b.previous_hash and the root of b.header is exactly b.block_hash. Every
other constructor (genesis bootstrap, both decoders) produces its block
through Block::from, so every live block satisfies this invariant. -/
theorem from_ok_hash_consistent (N : Network) (ph : Nat) (h : Header)
    (txs : List Transaction) (b : Block)
    (hb : Block.from' N ph h txs = Except.ok b) :
    ∃ r, b.header.to_root = some r ∧
      N.hash_bhp1024 (N.hashBits b.previous_hash ++ N.rootBits r) = some b.block_hash :=
  Block.from_ok_consistent hb

/-- Witness for C3 at a concrete successful construction. -/
theorem from_ok_hash_consistent_w :
    ∃ r, bV.header.to_root = some r ∧
      N0.hash_bhp1024 (N0.hashBits bV.previous_hash ++ N0.rootBits r) = some bV.block_hash :=
  from_ok_hash_consistent N0 2 hdr1 [tx1] bV rfl

/-- C6: constructing a block from an empty transaction set always fails with
the empty-transaction-set error, for every network, previous hash and
header; no block value is produced. -/
theorem from_empty_fails (N : Network) (ph : Nat) (h : Header) :
    Block.from' N ph h [] = Except.error ("Cannot create block with no transactions") := rfl

/-- C7: Block::is_genesis returns true exactly when the previous hash is the
zero hash, the header satisfies its genesis predicate, and there is exactly
one transaction; it is a total boolean predicate taking neither the network
hash capability nor a VM handle. -/
theorem is_genesis_characterization (b : Block) :
    b.is_genesis = true ↔
      (b.previous_hash = 0 ∧ b.header.is_genesis = true ∧ b.transactions.length = 1) := by
  simp [Block.is_genesis, Bool.and_eq_true, beq_iff_eq, and_assoc]

/-- C10: PlaintextType::to_json always returns a JSON object with exactly the
keys type, vtype and value in that order; type always maps to the string
PlaintextType, and vtype and value are the variant tag and the JSON of the
wrapped value for each of the three variants. -/
theorem plaintextType_to_json_shape (p : PlaintextType) :
    (p.to_json).objKeys = some ["type", "vtype", "value"] ∧
    (p.to_json).objGet "type" = some (Json.str "PlaintextType") ∧
    (∀ l, p = PlaintextType.Literal l →
      (p.to_json).objGet "vtype" = some (Json.str "Literal") ∧
      (p.to_json).objGet "value" = some l.to_json) ∧
    (∀ s, p = PlaintextType.Struct s →
      (p.to_json).objGet "vtype" = some (Json.str "Struct") ∧
      (p.to_json).objGet "value" = some s.to_json) ∧
    (∀ a, p = PlaintextType.Array a →
      (p.to_json).objGet "vtype" = some (Json.str "Array") ∧
      (p.to_json).objGet "value" = some a.to_json) := by
  cases p with
  | Literal l =>
    refine ⟨rfl, rfl, ?_, ?_, ?_⟩
    · intro x hx; cases hx; exact ⟨rfl, rfl⟩
    · intro x hx; cases hx
    · intro x hx; cases hx
  | Struct s =>
    refine ⟨rfl, rfl, ?_, ?_, ?_⟩
    · intro x hx; cases hx
    · intro x hx; cases hx; exact ⟨rfl, rfl⟩
    · intro x hx; cases hx
  | Array a =>
    refine ⟨rfl, rfl, ?_, ?_, ?_⟩
    · intro x hx; cases hx
    · intro x hx; cases hx
    · intro x hx; cases hx; exact ⟨rfl, rfl⟩

/-- Witness for C10 on the literal variant. -/
theorem plaintextType_to_json_shape_w :
    ((PlaintextType.Literal ⟨Json.null⟩).to_json).objGet "vtype" = some (Json.str "Literal") ∧
    ((PlaintextType.Literal ⟨Json.null⟩).to_json).objGet "value" =
      some (LiteralType.to_json ⟨Json.null⟩) :=
  (plaintextType_to_json_shape (PlaintextType.Literal ⟨Json.null⟩)).2.2.1 ⟨Json.null⟩ rfl

/-- C2: whenever every bootstrap step succeeds, the genesis protocol
assembles the transaction set [deployment, execution] in that order, builds
the block through Block::from with previous hash zero, and returns that
block when its genesis predicate holds, failing with the
genesis-invariant-violation error otherwise. -/
theorem genesis_assembly (N : Network) (vm : VM) (key : PrivateKey)
    (d rc ex c a : Nat) (blk : Block)
    (hd : vm.deployResult = Except.ok d)
    (hod : vm.onDeployResult = Except.ok ())
    (hc : key.callerResult = Except.ok c)
    (ha : vm.authorizeResult = Except.ok a)
    (he : vm.executeResult = Except.ok (rc, ex))
    (hb : Block.from' N 0 Header.genesis
        [Transaction.deployment d, Transaction.execution ex] = Except.ok blk) :
    blk.transactions = [Transaction.deployment d, Transaction.execution ex] ∧
      blk.previous_hash = 0 ∧
      Block.genesis N vm key =
        (if blk.is_genesis then Except.ok blk
         else Except.error ("Failed to initialize a genesis block")) := by
  obtain ⟨-, hph, -, htx, -⟩ := Block.from_ok_spec hb
  refine ⟨htx, hph, ?_⟩
  unfold Block.genesis
  rw [hd, hod, hc, ha, he]
  simp only [genesisProgramResult, Transactions.from']
  rw [hb]

/-- Witness for C2 at a concrete bootstrap run on which every step succeeds. -/
theorem genesis_assembly_w :
    blk0.transactions = [Transaction.deployment 3, Transaction.execution 5] ∧
      blk0.previous_hash = 0 ∧
      Block.genesis N0 vm0 key0 =
        (if blk0.is_genesis then Except.ok blk0
         else Except.error ("Failed to initialize a genesis block")) :=
  genesis_assembly N0 vm0 key0 3 0 5 21 11 blk0 rfl rfl rfl rfl rfl rfl

/-- C1: evaluation of the genesis bootstrap at an input on which every VM
step succeeds. The protocol assembles a two-transaction set, while the
genesis predicate demands exactly one transaction, so the final defensive
self-check fails and the bootstrap returns the genesis-invariant-violation
error instead of a block. -/
theorem genesis_two_transaction_self_check_fails :
    Block.genesis N0 vm0 key0 = Except.error ("Failed to initialize a genesis block") := rfl

/-- C4: Block::verify is a total boolean predicate (no error propagation)
and returns true exactly when the ordered checks all pass: the genesis
predicate at height 0, header validity, a computable header root, agreement
of the recomputed hash with the stored block hash, and transaction-set
verification; the first failing check yields false. -/
theorem verify_ordered_characterization (N : Network) (b : Block) (vm : VM) :
    Block.verify N b vm = true ↔
      ((b.header.height = 0 → b.is_genesis = true) ∧
        b.header.is_valid = true ∧
        (∃ r, b.header.to_root = some r ∧
          N.hash_bhp1024 (N.hashBits b.previous_hash ++ N.rootBits r) = some b.block_hash) ∧
        Transactions.verify b.transactions vm = true) := by
  unfold Block.verify
  split
  · next h1 =>
    simp only [Bool.and_eq_true, Bool.not_eq_true', beq_iff_eq] at h1
    apply iff_of_false (by simp)
    rintro ⟨hg, -⟩
    rw [hg h1.1] at h1
    simp at h1
  · next h1 =>
    simp only [Bool.and_eq_true, Bool.not_eq_true', beq_iff_eq, not_and] at h1
    split
    · next h2 =>
      simp only [Bool.not_eq_true'] at h2
      apply iff_of_false (by simp)
      rintro ⟨-, hv, -⟩
      rw [hv] at h2
      simp at h2
    · next h2 =>
      simp only [Bool.not_eq_true'] at h2
      split
      · next hroot =>
        apply iff_of_false (by simp)
        rintro ⟨-, -, ⟨r, hr, -⟩, -⟩
        rw [hroot] at hr
        simp at hr
      · next r hroot =>
        split
        · next hhash =>
          apply iff_of_false (by simp)
          rintro ⟨-, -, ⟨r2, hr2, hh2⟩, -⟩
          rw [hroot] at hr2
          cases hr2
          rw [hhash] at hh2
          simp at hh2
        · next c hhash =>
          split
          · next hne =>
            simp only [bne_iff_ne, ne_eq] at hne
            apply iff_of_false (by simp)
            rintro ⟨-, -, ⟨r2, hr2, hh2⟩, -⟩
            rw [hroot] at hr2
            cases hr2
            rw [hhash] at hh2
            exact hne (by simpa using hh2)
          · next hne =>
            simp only [bne_iff_ne, ne_eq, not_not] at hne
            split
            · next htx =>
              simp only [Bool.not_eq_true'] at htx
              apply iff_of_false (by simp)
              rintro ⟨-, -, -, htv⟩
              rw [htv] at htx
              simp at htx
            · next htx =>
              simp only [Bool.not_eq_true'] at htx
              apply iff_of_true rfl
              refine ⟨?_, ?_, ⟨r, hroot, ?_⟩, ?_⟩
              · intro hh0
                by_contra hgen
                exact h1 hh0 (by simpa using hgen)
              · by_contra hv
                exact h2 (by simpa using hv)
              · rw [hhash, hne]
              · by_contra htv
                exact htx (by simpa using htv)

/-- Witness for C4: all five checks pass on a concrete block, so verify
returns true. -/
theorem verify_ordered_characterization_w : Block.verify N0 bV vm0 = true :=
  (verify_ordered_characterization N0 bV vm0).mpr
    ⟨fun h => absurd h (by decide), rfl, ⟨4, rfl, rfl⟩, rfl⟩

/-- C5: decoding integrity. The binary reader rejects every non-zero version
tag; a successful binary decode and a successful structured-text decode each
return a block satisfying the hash-consistency invariant (both reconstruct
through Block::from); a structured-text document whose parsed block_hash
differs from the hash of the reconstructed block fails with the corruption
error; and a binary stream whose read block_hash differs from the hash of
the reconstructed block likewise fails with the corruption error. -/
theorem decode_integrity :
    (∀ (N : Network) (C : Codec) (b0 b1 : Nat) (rest : List Nat), b0 + 256 * b1 ≠ 0 →
        Block.read_le N C (b0 :: b1 :: rest) = Except.error ("Invalid block version")) ∧
    (∀ (N : Network) (C : Codec) (input : List Nat) (b : Block),
        Block.read_le N C input = Except.ok b →
        ∃ r, b.header.to_root = some r ∧
          N.hash_bhp1024 (N.hashBits b.previous_hash ++ N.rootBits r) = some b.block_hash) ∧
    (∀ (N : Network) (d : JsonDoc) (b : Block),
        Block.deserializeDoc N d = Except.ok b →
        ∃ r, b.header.to_root = some r ∧
          N.hash_bhp1024 (N.hashBits b.previous_hash ++ N.rootBits r) = some b.block_hash) ∧
    (∀ (N : Network) (x ph : Nat) (h : Header) (txs : List Transaction) (blk : Block),
        Block.from' N ph h txs = Except.ok blk → x ≠ blk.block_hash →
        Block.deserializeDoc N ⟨Except.ok x, Except.ok ph, Except.ok h, Except.ok txs⟩ =
          Except.error ("Mismatching block hash, possible data corruption")) ∧
    (∀ (N : Network) (C : Codec) (bytes r1 r2 r3 r4 : List Nat)
        (x ph : Nat) (h : Header) (txs : List Transaction) (blk : Block),
        C.hashFromBytes bytes = some (x, r1) →
        C.hashFromBytes r1 = some (ph, r2) →
        C.headerFromBytes r2 = some (h, r3) →
        C.txsFromBytes r3 = some (txs, r4) →
        Block.from' N ph h txs = Except.ok blk → x ≠ blk.block_hash →
        Block.read_le N C (0 :: 0 :: bytes) =
          Except.error ("Mismatching block hash, possible data corruption")) := by
  refine ⟨?_, ?_, ?_, ?_, ?_⟩
  · intro N C b0 b1 rest hv
    simp only [Block.read_le]
    rw [if_pos (by simpa [bne_iff_ne] using hv)]
  · intro N C input b hread
    match input with
    | [] => exact absurd hread (by simp [Block.read_le])
    | [b0] => exact absurd hread (by simp [Block.read_le])
    | b0 :: b1 :: rest =>
      simp only [Block.read_le] at hread
      split at hread
      · cases hread
      · split at hread
        · cases hread
        · split at hread
          · cases hread
          · split at hread
            · cases hread
            · split at hread
              · cases hread
              · split at hread
                · cases hread
                · rename_i blk hfrom
                  split at hread
                  · cases hread
                    exact Block.from_ok_consistent hfrom
                  · cases hread
  · intro N d b hread
    simp only [Block.deserializeDoc] at hread
    split at hread
    · cases hread
    · split at hread
      · cases hread
      · split at hread
        · cases hread
        · split at hread
          · cases hread
          · split at hread
            · cases hread
            · rename_i blk hfrom
              split at hread
              · cases hread
                exact Block.from_ok_consistent hfrom
              · cases hread
  · intro N x ph h txs blk hfrom hne
    unfold Block.deserializeDoc
    simp only [hfrom]
    rw [if_neg (by simpa using hne)]
  · intro N C bytes r1 r2 r3 r4 x ph h txs blk h1 h2 h3 h4 hfrom hne
    simp only [Block.read_le]
    rw [if_neg (by decide)]
    simp only [h1, h2, h3, h4, hfrom]
    rw [if_neg (by simpa using hne)]

/-- Witness for C5: a concrete non-zero version is rejected, a concrete
successful binary decode yields a hash-consistent block, and a concrete
binary stream carrying a wrong stored hash fails with the corruption
error. -/
theorem decode_integrity_w :
    Block.read_le N0 CodecU (1 :: 0 :: []) = Except.error ("Invalid block version") ∧
    (∃ r, bV.header.to_root = some r ∧
      N0.hash_bhp1024 (N0.hashBits bV.previous_hash ++ N0.rootBits r) = some bV.block_hash) ∧
    Block.read_le N0 CodecU
        (0 :: 0 :: (natToBytesU 8 ++
          (natToBytesU 2 ++ (headerToBytesU hdr1 ++ txsToBytesU [tx1])))) =
      Except.error ("Mismatching block hash, possible data corruption") :=
  ⟨decode_integrity.1 N0 CodecU 1 0 [] (by decide),
    decode_integrity.2.1 N0 CodecU (Block.write_le CodecU bV) bV rfl,
    decode_integrity.2.2.2.2 N0 CodecU
      (natToBytesU 8 ++ (natToBytesU 2 ++ (headerToBytesU hdr1 ++ txsToBytesU [tx1])))
      (natToBytesU 2 ++ (headerToBytesU hdr1 ++ txsToBytesU [tx1]))
      (headerToBytesU hdr1 ++ txsToBytesU [tx1]) (txsToBytesU [tx1]) []
      8 2 hdr1 [tx1] bV rfl rfl rfl rfl rfl (by decide)⟩

/-! Round-trip laws of the witness codec. -/

lemma natU_rt (n : Nat) (rest : List Nat) :
    natFromBytesU (natToBytesU n ++ rest) = some (n, rest) := by
  induction n with
  | zero => rfl
  | succ k ih =>
    have hsh : natToBytesU (k + 1) ++ rest = 1 :: (natToBytesU k ++ rest) := by
      simp [natToBytesU, List.replicate_succ]
    rw [hsh]
    simp [natFromBytesU, ih]

lemma boolU_rt (b : Bool) (rest : List Nat) :
    boolFromBytesU (boolToBytesU b ++ rest) = some (b, rest) := by
  cases b <;> rfl

lemma optNatU_rt (o : Option Nat) (rest : List Nat) :
    optNatFromBytesU (optNatToBytesU o ++ rest) = some (o, rest) := by
  cases o with
  | none => rfl
  | some n => simp [optNatToBytesU, optNatFromBytesU, natU_rt]

lemma headerU_rt (h : Header) (rest : List Nat) :
    headerFromBytesU (headerToBytesU h ++ rest) = some (h, rest) := by
  obtain ⟨ht, rt, v, g⟩ := h
  simp [headerToBytesU, headerFromBytesU, List.append_assoc, natU_rt, optNatU_rt, boolU_rt]

lemma txU_rt (t : Transaction) (rest : List Nat) :
    txFromBytesU (txToBytesU t ++ rest) = some (t, rest) := by
  cases t <;> simp [txToBytesU, txFromBytesU, natU_rt]

lemma readTxsU_rt (l : List Transaction) (rest : List Nat) :
    readTxsU l.length (txsBodyToBytesU l ++ rest) = some (l, rest) := by
  induction l with
  | nil => rfl
  | cons t ts ih =>
    simp [txsBodyToBytesU, readTxsU, List.append_assoc, txU_rt, ih]

lemma txsU_rt (l : List Transaction) (rest : List Nat) :
    txsFromBytesU (txsToBytesU l ++ rest) = some (l, rest) := by
  simp [txsToBytesU, txsFromBytesU, List.append_assoc, natU_rt, readTxsU_rt]

/-- C8: for every valid block (non-empty transactions and hash-consistency)
and every codec whose component readers invert the component writers on
prefixes, both the binary round trip and the structured-text round trip
reproduce the block exactly. -/
theorem block_roundtrip (N : Network) (C : Codec) (b : Block)
    (hne : b.transactions ≠ [])
    (hcons : ∃ r, b.header.to_root = some r ∧
      N.hash_bhp1024 (N.hashBits b.previous_hash ++ N.rootBits r) = some b.block_hash)
    (hH : ∀ x rest, C.hashFromBytes (C.hashToBytes x ++ rest) = some (x, rest))
    (hHd : ∀ h rest, C.headerFromBytes (C.headerToBytes h ++ rest) = some (h, rest))
    (hT : ∀ t rest, C.txsFromBytes (C.txsToBytes t ++ rest) = some (t, rest)) :
    Block.read_le N C (Block.write_le C b) = Except.ok b ∧
    Block.deserializeDoc N (Block.serializeDoc b) = Except.ok b := by
  obtain ⟨r, hr, hhash⟩ := hcons
  have hfrom : Block.from' N b.previous_hash b.header b.transactions = Except.ok b := by
    unfold Block.from'
    rw [if_neg (by simpa [List.isEmpty_iff] using hne)]
    rw [show b.header.to_root = some r from hr]
    simp only [hhash]
  constructor
  · unfold Block.write_le
    simp only [Block.read_le]
    rw [if_neg (by decide)]
    have hT0 : C.txsFromBytes (C.txsToBytes b.transactions) = some (b.transactions, []) := by
      simpa using hT b.transactions []
    simp only [List.append_assoc, hH, hHd, hT0, hfrom]
    simp
  · unfold Block.serializeDoc Block.deserializeDoc
    simp only [hfrom]
    simp

/-- Witness for C8 with the unary codec and a concrete valid block. -/
theorem block_roundtrip_w :
    Block.read_le N0 CodecU (Block.write_le CodecU bV) = Except.ok bV ∧
    Block.deserializeDoc N0 (Block.serializeDoc bV) = Except.ok bV :=
  block_roundtrip N0 CodecU bV (by simp [bV]) ⟨4, rfl, rfl⟩ natU_rt headerU_rt txsU_rt

/-! Injectivity facts for the NInj witness network. -/

lemma bitsVal_inj : ∀ x y : List Bool, bitsVal x = bitsVal y → x = y := by
  intro x
  induction x with
  | nil =>
    intro y h
    cases y with
    | nil => rfl
    | cons b bs =>
      exfalso
      cases b <;> simp [bitsVal] at h <;> omega
  | cons a as ih =>
    intro y h
    cases y with
    | nil =>
      exfalso
      cases a <;> simp [bitsVal] at h
    | cons b bs =>
      cases a <;> cases b
      · simp only [bitsVal, if_neg Bool.false_ne_true] at h
        rw [ih bs (by omega)]
      · exfalso
        simp [bitsVal] at h
        omega
      · exfalso
        simp [bitsVal] at h
        omega
      · simp only [bitsVal, if_pos rfl] at h
        rw [ih bs (by omega)]

lemma NInj_hash_inj : Function.Injective NInj.hash_bhp1024 := by
  intro x y h
  simp only [NInj, Option.some.injEq] at h
  exact bitsVal_inj x y h

lemma NInj_bits_inj : Function.Injective NInj.hashBits := by
  intro x y h
  simp only [NInj] at h
  have hlen := congrArg List.length h
  simpa [List.length_append, List.length_replicate] using hlen

/-- C9: given a hash-consistent block and a different previous hash, the
verifier rejects the block obtained by replacing previous_hash while keeping
block_hash, provided the bit decomposition and the hash function are
injective (the formal counterpart of collision resistance). -/
theorem verify_rejects_tampered_prev (N : Network) (b : Block) (vm : VM) (p : Nat)
    (hinjH : Function.Injective N.hash_bhp1024)
    (hinjB : Function.Injective N.hashBits)
    (hcons : ∃ r, b.header.to_root = some r ∧
      N.hash_bhp1024 (N.hashBits b.previous_hash ++ N.rootBits r) = some b.block_hash)
    (hp : p ≠ b.previous_hash) :
    Block.verify N ⟨b.block_hash, p, b.header, b.transactions⟩ vm = false := by
  obtain ⟨r, hr, hhash⟩ := hcons
  simp only [Block.verify]
  split
  · rfl
  · split
    · rfl
    · rw [show (⟨b.block_hash, p, b.header, b.transactions⟩ : Block).header.to_root = some r
        from hr]
      rcases hcand : N.hash_bhp1024 (N.hashBits p ++ N.rootBits r) with _ | c
      · simp [hcand]
      · have hne : c ≠ b.block_hash := by
          intro he
          apply hp
          apply hinjB
          apply List.append_cancel_right
          apply hinjH
          rw [hcand, hhash, he]
        simp [hcand, hne]

/-- Witness for C9: tampering the previous hash of a concrete valid block is
rejected by the verifier under the injective network. -/
theorem verify_rejects_tampered_prev_w :
    Block.verify NInj ⟨1, 5, hdr1, [tx1]⟩ vm0 = false :=
  verify_rejects_tampered_prev NInj bI vm0 5 NInj_hash_inj NInj_bits_inj
    ⟨4, rfl, rfl⟩ (by decide)

end Aleo
